import Mathlib

/-!
Verification of the arbitrage scanner (`tools/arbitrage/scanner.py`).

The Python module is embedded shallowly:
* `AuctionData` and `ArbitrageOpportunity` mirror the two dataclasses;
* Python integers become `ℤ` (currency amounts in copper), Python float
  arithmetic on prices is modelled exactly over `ℚ` (all quantities involved
  are ratios of machine-size integers), and Python's `int(...)` truncation
  toward zero is `pyInt`;
* `ArbitrageDetector` carries the two constructor parameters `min_profit`
  and `market_threshold`;
* Python's stable `list.sort(key=..., reverse=True)` is `List.mergeSort`
  with the reversed comparison, which is the (unique) stable descending
  sort;
* strings are `String` / `List Char`; Python's decimal formatting of a
  non-negative integer (`f"{n}g"` etc.) is `natRepr`.
-/

namespace Scanner

/-- Embedding of the `AuctionData` dataclass (all prices in copper). -/
structure AuctionData where
  item_id : ℤ
  item_name : String
  amount_listed : ℤ
  min_buyout : ℤ
  avg_price : ℤ
  vendor_price : ℤ
  last_scan : String
deriving DecidableEq

/-- Embedding of the `ArbitrageOpportunity` dataclass. -/
structure ArbitrageOpportunity where
  item_id : ℤ
  item_name : String
  opportunity_type : String
  current_price : ℤ
  target_price : ℤ
  profit_per_item : ℤ
  amount_available : ℤ
  total_potential_profit : ℤ
  roi_percent : ℚ
deriving DecidableEq

/-- Python's `int(...)` applied to a real number: truncation toward zero. -/
def pyInt (q : ℚ) : ℤ := if q < 0 then ⌈q⌉ else ⌊q⌋

/-- Embedding of the `ArbitrageDetector` class: the two constructor
parameters (`min_profit=1000`, `market_threshold=0.70`). -/
structure ArbitrageDetector where
  min_profit : ℤ := 1000
  market_threshold : ℚ := 0.70
deriving DecidableEq

namespace ArbitrageDetector

/-- Class constant `AH_CUT = 0.05` (the 5% auction-house cut). -/
def AH_CUT : ℚ := 0.05

/-- Class constant `MIN_PROFIT = 1000` (10 silver, in copper). -/
def MIN_PROFIT : ℤ := 1000

/-- Class constant `MARKET_DISCOUNT_THRESHOLD = 0.70`. -/
def MARKET_DISCOUNT_THRESHOLD : ℚ := 0.70

/-- Embedding of `ArbitrageDetector.detect_vendor_flip`. -/
def detect_vendor_flip (d : ArbitrageDetector) (auction : AuctionData) :
    Option ArbitrageOpportunity :=
  if auction.vendor_price ≤ 0 then none
  else
    let profit := auction.vendor_price - auction.min_buyout
    if d.min_profit ≤ profit then
      some
        { item_id := auction.item_id
          item_name := auction.item_name
          opportunity_type := "vendor"
          current_price := auction.min_buyout
          target_price := auction.vendor_price
          profit_per_item := profit
          amount_available := auction.amount_listed
          total_potential_profit := profit * auction.amount_listed
          roi_percent :=
            if 0 < auction.min_buyout then
              (profit : ℚ) / (auction.min_buyout : ℚ) * 100
            else 0 }
    else none

/-- Embedding of `ArbitrageDetector.detect_market_flip`. -/
def detect_market_flip (d : ArbitrageDetector) (auction : AuctionData) :
    Option ArbitrageOpportunity :=
  if auction.avg_price ≤ 0 ∨ auction.min_buyout ≤ 0 then none
  else if (auction.avg_price : ℚ) * d.market_threshold < (auction.min_buyout : ℚ) then none
  else
    let resale_price := (auction.avg_price : ℚ)
    let net_resale := resale_price * (1 - AH_CUT)
    let profit := pyInt (net_resale - (auction.min_buyout : ℚ))
    if d.min_profit ≤ profit then
      some
        { item_id := auction.item_id
          item_name := auction.item_name
          opportunity_type := "market"
          current_price := auction.min_buyout
          target_price := auction.avg_price
          profit_per_item := profit
          amount_available := auction.amount_listed
          total_potential_profit := profit * auction.amount_listed
          roi_percent := (profit : ℚ) / (auction.min_buyout : ℚ) * 100 }
    else none

/-- The pre-sort opportunity list accumulated by the loop in
`ArbitrageDetector.analyze`: for each auction, the vendor-flip result (if
any) followed by the market-flip result (if any), in input order. -/
def opportunities (d : ArbitrageDetector) (auctions : List AuctionData) :
    List ArbitrageOpportunity :=
  auctions.flatMap fun a =>
    (d.detect_vendor_flip a).toList ++ (d.detect_market_flip a).toList

/-- The comparison used by
`opportunities.sort(key=lambda x: x.total_potential_profit, reverse=True)`:
descending by total potential profit. -/
def oppLE (x y : ArbitrageOpportunity) : Bool :=
  decide (y.total_potential_profit ≤ x.total_potential_profit)

/-- Embedding of `ArbitrageDetector.analyze`: collect opportunities in input
order, then sort them stably, descending by total potential profit (Python's
`list.sort` is stable, also with `reverse=True`). -/
def analyze (d : ArbitrageDetector) (auctions : List AuctionData) :
    List ArbitrageOpportunity :=
  (d.opportunities auctions).mergeSort oppLE

end ArbitrageDetector

/-- One record of the structured (JSON) export written by `export_for_aux`:
the dict literal has exactly the keys `id`, `name`, `type`, `profit`, `roi`. -/
structure AuxExportRecord where
  id : ℤ
  name : String
  type : String
  profit : ℤ
  roi : ℚ
deriving DecidableEq

/-- Embedding of the structured part of `export_for_aux`: the list `items`
built by the loop (one dict appended per opportunity, in list order). -/
def export_for_aux (opportunities : List ArbitrageOpportunity) :
    List AuxExportRecord :=
  opportunities.foldl
    (fun items opp =>
      items ++
        [{ id := opp.item_id
           name := opp.item_name
           type := opp.opportunity_type
           profit := opp.profit_per_item
           roi := opp.roi_percent }])
    []

/-! Currency formatting and parsing.

Python renders a non-negative integer in decimal (`f"{gold}g"` etc.); this
is `natRepr`, a fuel-based digit emitter (fuel `n+1` always suffices).
`" ".join(parts)` is `joinSpace`. -/

/-- Decimal digit emitter: prepends the digits of `n` to `acc` (the fuel
only bounds the recursion depth). -/
def natDigits : ℕ → ℕ → List Char → List Char
  | 0, _, acc => acc
  | fuel + 1, n, acc =>
    let d := Nat.digitChar (n % 10)
    if n < 10 then d :: acc else natDigits fuel (n / 10) (d :: acc)

/-- Python's decimal rendering of a non-negative integer. -/
def natRepr (n : ℕ) : List Char := natDigits (n + 1) n []

/-- Embedding of the space-join of parts (Python join with a space). -/
def joinSpace : List (List Char) → List Char
  | [] => []
  | [p] => p
  | p :: q :: ps => p ++ ' ' :: joinSpace (q :: ps)

/-- The `parts` list built by `format_copper`: gold and silver components if
positive, and the copper component if positive or if no part was added
yet. -/
def format_copper_parts (copper : ℕ) : List (List Char) :=
  let gold := copper / 10000
  let silver := copper % 10000 / 100
  let copper_rem := copper % 100
  let parts : List (List Char) := []
  let parts := if 0 < gold then parts ++ [natRepr gold ++ ['g']] else parts
  let parts := if 0 < silver then parts ++ [natRepr silver ++ ['s']] else parts
  if 0 < copper_rem ∨ parts = [] then parts ++ [natRepr copper_rem ++ ['c']] else parts

/-- Embedding of `format_copper` (on non-negative amounts, the domain used
by the program and the spec). -/
def format_copper (copper : ℕ) : String := ⟨joinSpace (format_copper_parts copper)⟩

/-- Modelled from the spec (§8): render the gold/silver/copper components,
omit every zero-valued component, and fall back to `"0c"` when every
component is zero. Used only to compare `format_copper` against the spec's
wording. -/
def formatCopperSpec (copper : ℕ) : String :=
  let comps := [(copper / 10000, 'g'), (copper % 10000 / 100, 's'), (copper % 100, 'c')]
  let parts := (comps.filter fun p => decide (0 < p.1)).map fun p => natRepr p.1 ++ [p.2]
  if parts = [] then "0c" else ⟨joinSpace parts⟩

/-- Embedding of `re.search(r'(\d+)X', s)` for a non-digit marker `X`, as
used by `_parse_copper`: scan left to right, accumulating the current digit
run; at the first digit run immediately followed by `t`, return its value.
(`cur` holds the value of the digit run ending at the current position, if
any.) -/
def findNumAux (t : Char) : List Char → Option ℕ → Option ℕ
  | [], _ => none
  | c :: rest, cur =>
    if c.isDigit then findNumAux t rest (some (cur.getD 0 * 10 + (c.toNat - 48)))
    else if c = t then
      match cur with
      | some n => some n
      | none => findNumAux t rest none
    else findNumAux t rest none

/-- The value of the first digit run immediately followed by `t`, if any. -/
def findNum (t : Char) (cs : List Char) : Option ℕ := findNumAux t cs none

/-- Embedding of `WowAuctionsScraper._parse_copper`: each of the three
regex groups contributes its value (0 when absent); an empty string yields
0 through the same path. -/
def parse_copper (price_str : String) : ℕ :=
  (match findNum 'g' price_str.data with | some n => n * 10000 | none => 0) +
    (match findNum 's' price_str.data with | some n => n * 100 | none => 0) +
    (match findNum 'c' price_str.data with | some n => n | none => 0)

/-- The value of a digit-character list read left to right, starting from
accumulator `v` (proof helper for `findNumAux`). -/
def digitsVal (v : ℕ) (cs : List Char) : ℕ :=
  cs.foldl (fun v c => v * 10 + (c.toNat - 48)) v

/-! Concrete sample data used by witnesses and counterexamples. -/

/-- A detector built with the default constructor arguments
(`min_profit=1000`, `market_threshold=0.70`). -/
def detector₀ : ArbitrageDetector := { min_profit := 1000, market_threshold := 0.70 }

/-- A detector built with `min_profit=0` (a value the constructor and the
`--min-profit` CLI flag both accept). -/
def detectorFree : ArbitrageDetector := { min_profit := 0, market_threshold := 0.70 }

/-- A vendor-flip snapshot: buyout 500, vendor price 2000, quantity 3. -/
def itemA : AuctionData := ⟨1, "Item A", 3, 500, 0, 2000, ""⟩

/-- A market-flip snapshot: buyout 1000, average price 100000, quantity 5. -/
def itemM : AuctionData := ⟨2, "Item M", 5, 1000, 100000, 0, ""⟩

/-- A snapshot with zero buyout but a large vendor price. -/
def itemZeroBuyout : AuctionData := ⟨3, "Item Z", 2, 0, 0, 2000, ""⟩

/-- A snapshot whose vendor price equals its buyout. -/
def itemBreakEven : AuctionData := ⟨4, "Item E", 1, 5, 0, 5, ""⟩

/-- A snapshot priced above the 70% market-discount threshold. -/
def itemT : AuctionData := ⟨5, "Item T", 1, 800, 1000, 0, ""⟩

/-- A snapshot listed above its vendor price. -/
def itemVB : AuctionData := ⟨6, "Item V", 1, 150, 0, 100, ""⟩

/-- The market-flip opportunity the detector produces from `itemM`:
profit `⌊100000 × 0.95⌋ − 1000 = 94000`, total `94000 × 5`, ROI `9400`. -/
def mOpp : ArbitrageOpportunity :=
  ⟨2, "Item M", "market", 1000, 100000, 94000, 5, 470000, 9400⟩

/-- An opportunity with buyout 500 and target 2000. -/
def oppA : ArbitrageOpportunity := ⟨1, "Item A", "vendor", 500, 2000, 1500, 3, 4500, 300⟩

/-- Like `oppA` but with different current and target prices. -/
def oppB : ArbitrageOpportunity := ⟨1, "Item A", "vendor", 600, 2100, 1500, 3, 4500, 300⟩

/-- Claim C1: for every snapshot with `vendorPrice > buyout > 0` and
`vendorPrice − buyout ≥ minProfit`, `detect_vendor_flip` returns an
opportunity whose `profit_per_item` is exactly `vendorPrice − buyout` and
whose `roi_percent` equals `profit / buyout × 100`. -/
theorem detect_vendor_flip_profitable (d : ArbitrageDetector) (a : AuctionData)
    (hvb : a.min_buyout < a.vendor_price) (hb : 0 < a.min_buyout)
    (hmin : d.min_profit ≤ a.vendor_price - a.min_buyout) :
    (d.detect_vendor_flip a).map (fun o => (o.profit_per_item, o.roi_percent)) =
      some (a.vendor_price - a.min_buyout,
        ((a.vendor_price - a.min_buyout : ℤ) : ℚ) / (a.min_buyout : ℚ) * 100) := by
  unfold ArbitrageDetector.detect_vendor_flip
  rw [if_neg (by omega : ¬ a.vendor_price ≤ 0)]
  simp only [if_pos hmin, if_pos hb]
  rfl

/-- Witness for C1 at `detector₀` and `itemA`. -/
theorem detect_vendor_flip_profitable_witness :
    (detector₀.detect_vendor_flip itemA).map (fun o => (o.profit_per_item, o.roi_percent)) =
      some (1500, 300) := by
  have h := detect_vendor_flip_profitable detector₀ itemA (by decide) (by decide) (by decide)
  rw [h]; norm_num [itemA]

/-- The sort comparison is transitive. -/
theorem oppLE_trans (a b c : ArbitrageOpportunity) :
    ArbitrageDetector.oppLE a b → ArbitrageDetector.oppLE b c →
      ArbitrageDetector.oppLE a c := by
  simp only [ArbitrageDetector.oppLE, decide_eq_true_eq]
  omega

/-- The sort comparison is total. -/
theorem oppLE_total (a b : ArbitrageOpportunity) :
    ArbitrageDetector.oppLE a b || ArbitrageDetector.oppLE b a := by
  simp only [ArbitrageDetector.oppLE, Bool.or_eq_true, decide_eq_true_eq]
  omega

/-- Claim C2: for every detector and input list, `analyze` returns a list
sorted in descending order of `total_potential_profit`, and opportunities
with equal `total_potential_profit` keep the order in which their snapshots
were encountered (the order of the pre-sort list `opportunities`): the sort
is stable. -/
theorem analyze_sorted_stable (d : ArbitrageDetector) (l : List AuctionData) :
    (d.analyze l).Pairwise
      (fun x y => y.total_potential_profit ≤ x.total_potential_profit) ∧
    ∀ v : ℤ,
      (d.analyze l).filter (fun o => decide (o.total_potential_profit = v)) =
        (d.opportunities l).filter (fun o => decide (o.total_potential_profit = v)) := by
  constructor
  · have hs := List.sorted_mergeSort oppLE_trans oppLE_total (d.opportunities l)
    exact hs.imp fun h => by
      simpa [ArbitrageDetector.oppLE] using h
  · intro v
    simp only [ArbitrageDetector.analyze]
    set P : ArbitrageOpportunity → Bool := fun o => decide (o.total_potential_profit = v)
      with hP
    have h1 : List.Sublist ((d.opportunities l).filter P)
        ((d.opportunities l).mergeSort ArbitrageDetector.oppLE) := by
      apply List.sublist_mergeSort oppLE_trans oppLE_total
      · apply List.pairwise_of_forall_mem_list
        intro x hx y hy
        have hxv := (List.mem_filter.mp hx).2
        have hyv := (List.mem_filter.mp hy).2
        rw [hP] at hxv hyv
        simp only [decide_eq_true_eq] at hxv hyv
        simp only [ArbitrageDetector.oppLE, decide_eq_true_eq, hxv, hyv, le_refl]
      · exact List.filter_sublist _
    have h2 := h1.filter P
    have h3 : ((d.opportunities l).filter P).filter P = (d.opportunities l).filter P :=
      List.filter_eq_self.mpr fun a ha => (List.mem_filter.mp ha).2
    rw [h3] at h2
    have hlen :
        (((d.opportunities l).mergeSort ArbitrageDetector.oppLE).filter P).length =
          ((d.opportunities l).filter P).length :=
      ((List.mergeSort_perm (d.opportunities l) ArbitrageDetector.oppLE).filter P).length_eq
    exact (h2.eq_of_length hlen.symm).symm

/-- Counterexample to claim C5: a snapshot with `buyout = 0` and a vendor price of
2000 still yields a vendor-flip opportunity under the default detector, so
the claim that `buyout = 0` forces an absent result is false on the code. -/
theorem detect_vendor_flip_zero_buyout_cex :
    itemZeroBuyout.min_buyout = 0 ∧
      (detector₀.detect_vendor_flip itemZeroBuyout).isSome = true := by decide

/-- Amended claim C5: the function `detect_vendor_flip` only requires `vendorPrice > 0`:
for every snapshot with `vendorPrice = 0` it returns `none`. (A snapshot with
`buyout = 0` can still produce an opportunity; its ROI is then reported
as 0.) -/
theorem detect_vendor_flip_not_vendorable (d : ArbitrageDetector) (a : AuctionData)
    (h : a.vendor_price = 0) : d.detect_vendor_flip a = none := by
  unfold ArbitrageDetector.detect_vendor_flip
  rw [if_pos (by omega)]

/-- Witness for the amended C5 at `detector₀` and `itemM`. -/
theorem detect_vendor_flip_not_vendorable_witness :
    detector₀.detect_vendor_flip itemM = none :=
  detect_vendor_flip_not_vendorable detector₀ itemM (by decide)

/-- Claim C6: with the default discount threshold `0.70`, every snapshot with
`buyout > avgPrice × 0.70` makes `detect_market_flip` return `none`,
regardless of how large the computed profit would be. -/
theorem detect_market_flip_above_threshold (d : ArbitrageDetector) (a : AuctionData)
    (ht : d.market_threshold = 0.70)
    (h : (a.avg_price : ℚ) * (0.70 : ℚ) < (a.min_buyout : ℚ)) :
    d.detect_market_flip a = none := by
  unfold ArbitrageDetector.detect_market_flip
  by_cases hg : a.avg_price ≤ 0 ∨ a.min_buyout ≤ 0
  · rw [if_pos hg]
  · rw [if_neg hg, if_pos (by rw [ht]; exact h)]

/-- Witness for C6 at `detector₀` and `itemT`. -/
theorem detect_market_flip_above_threshold_witness :
    detector₀.market_threshold = 0.70 ∧
      ((itemT.avg_price : ℚ) * (0.70 : ℚ) < (itemT.min_buyout : ℚ)) ∧
      detector₀.detect_market_flip itemT = none :=
  ⟨rfl, by norm_num [itemT],
    detect_market_flip_above_threshold detector₀ itemT rfl (by norm_num [itemT])⟩

/-- Claim C3: for every snapshot with `avgPrice > 0`, `buyout > 0` and
`buyout ≤ avgPrice × discountThreshold` (default threshold `0.70`),
`detect_market_flip` computes net resale `avgPrice × (1 − AH_CUT)`
(`AH_CUT = 0.05`) and a per-item profit of `⌊net resale − buyout⌋`, and
returns an opportunity with exactly that profit precisely when the profit
is at least the configured minimum. -/
theorem detect_market_flip_profit (d : ArbitrageDetector) (a : AuctionData)
    (ht : d.market_threshold = 0.70)
    (ha : 0 < a.avg_price) (hb : 0 < a.min_buyout)
    (hth : (a.min_buyout : ℚ) ≤ (a.avg_price : ℚ) * d.market_threshold) :
    (d.min_profit ≤ ⌊(a.avg_price : ℚ) * (1 - ArbitrageDetector.AH_CUT) - (a.min_buyout : ℚ)⌋ →
      (d.detect_market_flip a).map (fun o => o.profit_per_item) =
        some ⌊(a.avg_price : ℚ) * (1 - ArbitrageDetector.AH_CUT) - (a.min_buyout : ℚ)⌋) ∧
    (⌊(a.avg_price : ℚ) * (1 - ArbitrageDetector.AH_CUT) - (a.min_buyout : ℚ)⌋ < d.min_profit →
      d.detect_market_flip a = none) := by
  have hq : (0 : ℚ) ≤ (a.avg_price : ℚ) * (1 - ArbitrageDetector.AH_CUT) - (a.min_buyout : ℚ) := by
    rw [ht] at hth
    have havg : (0 : ℚ) ≤ (a.avg_price : ℚ) := by exact_mod_cast ha.le
    have : (a.avg_price : ℚ) * (0.70 : ℚ) ≤ (a.avg_price : ℚ) * (1 - ArbitrageDetector.AH_CUT) := by
      apply mul_le_mul_of_nonneg_left _ havg
      norm_num [ArbitrageDetector.AH_CUT]
    linarith
  have hpy : pyInt ((a.avg_price : ℚ) * (1 - ArbitrageDetector.AH_CUT) - (a.min_buyout : ℚ)) =
      ⌊(a.avg_price : ℚ) * (1 - ArbitrageDetector.AH_CUT) - (a.min_buyout : ℚ)⌋ := by
    unfold pyInt
    rw [if_neg (not_lt.mpr hq)]
  constructor
  · intro hmin
    simp only [ArbitrageDetector.detect_market_flip]
    rw [if_neg (by omega : ¬ (a.avg_price ≤ 0 ∨ a.min_buyout ≤ 0)),
      if_neg (not_lt.mpr hth), hpy, if_pos hmin]
    rfl
  · intro hlt
    simp only [ArbitrageDetector.detect_market_flip]
    rw [if_neg (by omega : ¬ (a.avg_price ≤ 0 ∨ a.min_buyout ≤ 0)),
      if_neg (not_lt.mpr hth), hpy, if_neg (not_le.mpr hlt)]

/-- Witness for C3 at `detector₀` and `itemM`: the profit is
`⌊100000 × 0.95⌋ − 1000 = 94000 ≥ 1000`. -/
theorem detect_market_flip_profit_witness :
    (detector₀.detect_market_flip itemM).map (fun o => o.profit_per_item) = some 94000 := by
  have h := (detect_market_flip_profit detector₀ itemM rfl (by decide) (by decide)
      (by norm_num [itemM, detector₀])).1
    (by norm_num [itemM, detector₀, ArbitrageDetector.AH_CUT])
  rw [h]
  norm_num [itemM, ArbitrageDetector.AH_CUT]

/-- Counterexample to claim C7: with `min_profit = 0` (a legal constructor
argument) and a snapshot whose vendor price equals its buyout,
`detect_vendor_flip` returns an opportunity, so the claim — stated with no
hypothesis on `minProfit` — is false on the code. -/
theorem detect_vendor_flip_breakeven_cex :
    itemBreakEven.vendor_price ≤ itemBreakEven.min_buyout ∧
      (detectorFree.detect_vendor_flip itemBreakEven).isSome = true := by decide

/-- Amended claim C7: provided the configured minimum profit is positive (as
expected), every snapshot with `vendorPrice ≤ buyout` makes
`detect_vendor_flip` return `none`. -/
theorem detect_vendor_flip_unprofitable (d : ArbitrageDetector) (a : AuctionData)
    (hmp : 0 < d.min_profit) (h : a.vendor_price ≤ a.min_buyout) :
    d.detect_vendor_flip a = none := by
  unfold ArbitrageDetector.detect_vendor_flip
  by_cases hv : a.vendor_price ≤ 0
  · rw [if_pos hv]
  · rw [if_neg hv, if_neg (by omega)]

/-- Witness for the amended C7 at `detector₀` and `itemVB`. -/
theorem detect_vendor_flip_unprofitable_witness :
    (0 : ℤ) < detector₀.min_profit ∧ detector₀.detect_vendor_flip itemVB = none :=
  ⟨by decide, detect_vendor_flip_unprofitable detector₀ itemVB (by decide) (by decide)⟩

/-- The snapshot `itemM` is not vendorable, so the vendor detector skips it. -/
theorem detect_vendor_flip_itemM : detector₀.detect_vendor_flip itemM = none := by decide

/-- Evaluating the market detector on `itemM`. -/
theorem detect_market_flip_itemM : detector₀.detect_market_flip itemM = some mOpp := by
  simp only [ArbitrageDetector.detect_market_flip, detector₀, itemM, mOpp]
  norm_num [pyInt, ArbitrageDetector.AH_CUT]

/-- Evaluating `analyze` on the single snapshot `itemM`. -/
theorem analyze_itemM : detector₀.analyze [itemM] = [mOpp] := by
  have hop : detector₀.opportunities [itemM] = [mOpp] := by
    simp [ArbitrageDetector.opportunities, detect_vendor_flip_itemM, detect_market_flip_itemM]
  simp [ArbitrageDetector.analyze, hop]

/-- Counterexample to claim C4: on the snapshot `itemM` the default detector
produces a market-flip opportunity whose `profit_per_item` (94000) is not
`target_price − current_price` (99000), so the claimed invariant fails. -/
theorem analyze_profit_not_price_difference_cex :
    (detector₀.analyze [itemM]).all
      (fun o => decide (o.profit_per_item = o.target_price - o.current_price)) = false := by
  rw [analyze_itemM]
  decide

/-- Amended claim C4: every opportunity produced by `analyze` has
`profit_per_item ≥ min_profit` and
`total_potential_profit = profit_per_item × amount_available`; vendor-flip
opportunities additionally satisfy
`profit_per_item = target_price − current_price`, while market-flip
opportunities satisfy
`profit_per_item = int(target_price × (1 − AH_CUT) − current_price)`. -/
theorem analyze_opportunity_invariants (d : ArbitrageDetector) (l : List AuctionData)
    (opp : ArbitrageOpportunity) (h : opp ∈ d.analyze l) :
    d.min_profit ≤ opp.profit_per_item ∧
      opp.total_potential_profit = opp.profit_per_item * opp.amount_available ∧
      (opp.opportunity_type = "vendor" →
        opp.profit_per_item = opp.target_price - opp.current_price) ∧
      (opp.opportunity_type = "market" →
        opp.profit_per_item =
          pyInt ((opp.target_price : ℚ) * (1 - ArbitrageDetector.AH_CUT) -
            (opp.current_price : ℚ))) := by
  simp only [ArbitrageDetector.analyze, List.mem_mergeSort] at h
  simp only [ArbitrageDetector.opportunities, List.mem_flatMap] at h
  obtain ⟨a, -, hmem⟩ := h
  rw [List.mem_append] at hmem
  rcases hmem with hv | hm
  · rw [Option.mem_toList, Option.mem_def] at hv
    simp only [ArbitrageDetector.detect_vendor_flip] at hv
    split at hv
    · exact absurd hv (by simp)
    · split at hv
      · rename_i hcond
        rw [Option.some.injEq] at hv
        subst hv
        exact ⟨hcond, rfl, fun _ => rfl, fun hmk => by simp at hmk⟩
      · exact absurd hv (by simp)
  · rw [Option.mem_toList, Option.mem_def] at hm
    simp only [ArbitrageDetector.detect_market_flip] at hm
    split at hm
    · exact absurd hm (by simp)
    · split at hm
      · exact absurd hm (by simp)
      · split at hm
        · rename_i hcond
          rw [Option.some.injEq] at hm
          subst hm
          exact ⟨hcond, rfl, fun hvk => by simp at hvk, fun _ => rfl⟩
        · exact absurd hm (by simp)

/-- Witness for the amended C4: the opportunity `analyze` produces from
`itemM` satisfies all four properties. -/
theorem analyze_opportunity_invariants_witness :
    detector₀.min_profit ≤ mOpp.profit_per_item ∧
      mOpp.total_potential_profit = mOpp.profit_per_item * mOpp.amount_available ∧
      (mOpp.opportunity_type = "vendor" →
        mOpp.profit_per_item = mOpp.target_price - mOpp.current_price) ∧
      (mOpp.opportunity_type = "market" →
        mOpp.profit_per_item =
          pyInt ((mOpp.target_price : ℚ) * (1 - ArbitrageDetector.AH_CUT) -
            (mOpp.current_price : ℚ))) :=
  analyze_opportunity_invariants detector₀ [itemM] mOpp
    (by rw [analyze_itemM]; exact List.mem_singleton_self mOpp)

/-- Counterexample to claim C8: two opportunities that differ in their current
(and target) prices produce identical export records, so the structured
export does not carry the opportunity's prices. -/
theorem export_for_aux_missing_prices_cex :
    oppA.current_price ≠ oppB.current_price ∧
      export_for_aux [oppA] = export_for_aux [oppB] :=
  ⟨by decide, rfl⟩

/-- Amended claim C8: the structured export contains one record per
opportunity, in the same order as the analyzed/sorted list, and each record
carries the opportunity's id, name, kind, profit and ROI (its current and
target prices are not part of the record). -/
theorem export_for_aux_records (opps : List ArbitrageOpportunity) :
    export_for_aux opps = opps.map (fun o =>
      { id := o.item_id, name := o.item_name, type := o.opportunity_type,
        profit := o.profit_per_item, roi := o.roi_percent }) := by
  suffices h : ∀ init : List AuxExportRecord,
      opps.foldl (fun items opp =>
        items ++
          [{ id := opp.item_id, name := opp.item_name, type := opp.opportunity_type,
             profit := opp.profit_per_item, roi := opp.roi_percent }]) init =
        init ++ opps.map (fun o =>
          { id := o.item_id, name := o.item_name, type := o.opportunity_type,
            profit := o.profit_per_item, roi := o.roi_percent }) by
    simpa [export_for_aux] using h []
  induction opps with
  | nil => intro init; simp
  | cons a t ih =>
    intro init
    simp [List.foldl_cons, ih, List.append_assoc]

/-! Facts about the decimal rendering `natRepr`. -/

/-- The accumulator of `natDigits` is simply appended. -/
theorem natDigits_acc (fuel : ℕ) :
    ∀ (n : ℕ) (acc : List Char), natDigits fuel n acc = natDigits fuel n [] ++ acc := by
  induction fuel with
  | zero => intro n acc; simp [natDigits]
  | succ fuel ih =>
    intro n acc
    simp only [natDigits]
    by_cases h : n < 10
    · simp [h]
    · rw [if_neg h, if_neg h, ih (n / 10) (Nat.digitChar (n % 10) :: acc),
        ih (n / 10) [Nat.digitChar (n % 10)], List.append_assoc]
      rfl

/-- Any sufficiently large fuel gives the same digit list. -/
theorem natDigits_fuel (f₁ : ℕ) :
    ∀ (f₂ n : ℕ) (acc : List Char), n < f₁ → n < f₂ →
      natDigits f₁ n acc = natDigits f₂ n acc := by
  induction f₁ with
  | zero => intro f₂ n acc h1 _; omega
  | succ f₁ ih =>
    intro f₂ n acc h1 h2
    match f₂ with
    | 0 => omega
    | f₂ + 1 =>
      simp only [natDigits]
      by_cases h : n < 10
      · simp [h]
      · rw [if_neg h, if_neg h, ih f₂ (n / 10) _ (by omega) (by omega)]

/-- Unfolding `natRepr` for two-digit-or-more numbers. -/
theorem natRepr_step (n : ℕ) (h : 10 ≤ n) :
    natRepr n = natRepr (n / 10) ++ [Nat.digitChar (n % 10)] := by
  have h1 : natDigits (n + 1) n [] =
      if n < 10 then [Nat.digitChar (n % 10)]
      else natDigits n (n / 10) [Nat.digitChar (n % 10)] := rfl
  unfold natRepr
  rw [h1, if_neg (by omega : ¬ n < 10),
    natDigits_acc n (n / 10) [Nat.digitChar (n % 10)],
    natDigits_fuel n (n / 10 + 1) (n / 10) [] (by omega) (by omega)]

/-- Single-digit numbers render as one digit character. -/
theorem natRepr_small (n : ℕ) (h : n < 10) : natRepr n = [Nat.digitChar (n % 10)] := by
  unfold natRepr
  simp [natDigits, h]

/-- Digit characters for values below 10 are decimal digits. -/
theorem digitChar_isDigit : ∀ k : ℕ, k < 10 → (Nat.digitChar k).isDigit = true := by decide

/-- Digit characters decode back to their value. -/
theorem digitChar_toNat : ∀ k : ℕ, k < 10 → (Nat.digitChar k).toNat - 48 = k := by decide

/-- Every character of `natRepr n` is a decimal digit. -/
theorem natRepr_isDigit (n : ℕ) : ∀ ch ∈ natRepr n, ch.isDigit = true := by
  induction n using Nat.strong_induction_on with
  | _ n ih =>
    by_cases h : n < 10
    · rw [natRepr_small n h]
      intro ch hch
      rw [List.mem_singleton] at hch
      subst hch
      exact digitChar_isDigit _ (by omega)
    · rw [natRepr_step n (by omega)]
      intro ch hch
      rw [List.mem_append] at hch
      rcases hch with hch | hch
      · exact ih (n / 10) (by omega) ch hch
      · rw [List.mem_singleton] at hch
        subst hch
        exact digitChar_isDigit _ (by omega)

/-- The rendering `natRepr` never returns the empty list. -/
theorem natRepr_ne_nil (n : ℕ) : natRepr n ≠ [] := by
  by_cases h : n < 10
  · rw [natRepr_small n h]; simp
  · rw [natRepr_step n (by omega)]; simp

/-- Reading the digits of `natRepr n` starting from accumulator `v`. -/
theorem digitsVal_natRepr (n : ℕ) :
    ∀ v : ℕ, digitsVal v (natRepr n) = v * 10 ^ (natRepr n).length + n := by
  induction n using Nat.strong_induction_on with
  | _ n ih =>
    intro v
    by_cases h : n < 10
    · rw [natRepr_small n h]
      simp only [digitsVal, List.foldl_cons, List.foldl_nil, List.length_singleton, pow_one]
      rw [digitChar_toNat _ (by omega)]
      omega
    · rw [natRepr_step n (by omega)]
      simp only [digitsVal, List.foldl_append, List.foldl_cons, List.foldl_nil,
        List.length_append, List.length_singleton]
      have hv := ih (n / 10) (by omega) v
      simp only [digitsVal] at hv
      rw [hv, digitChar_toNat _ (by omega)]
      calc (v * 10 ^ (natRepr (n / 10)).length + n / 10) * 10 + n % 10
          = v * (10 ^ (natRepr (n / 10)).length * 10) + (n / 10 * 10 + n % 10) := by ring
        _ = v * 10 ^ ((natRepr (n / 10)).length + 1) + n := by
            rw [pow_succ, show n / 10 * 10 + n % 10 = n by omega]

/-- The digits of `natRepr n` decode to `n`. -/
theorem digitsVal_natRepr_zero (n : ℕ) : digitsVal 0 (natRepr n) = n := by
  rw [digitsVal_natRepr n 0]
  simp

/-! Facts about the regex-search embedding `findNumAux`. -/

/-- A digit run immediately followed by the marker yields its value (read
from the current accumulator). -/
theorem findNumAux_run (t : Char) (ht : t.isDigit = false) :
    ∀ (ds : List Char), (∀ c ∈ ds, c.isDigit = true) → ds ≠ [] →
      ∀ (rest : List Char) (cur : Option ℕ),
      findNumAux t (ds ++ t :: rest) cur = some (digitsVal (cur.getD 0) ds) := by
  intro ds
  induction ds with
  | nil => intro _ hne; exact absurd rfl hne
  | cons d ds ih =>
    intro hdig _ rest cur
    have hd : d.isDigit = true := hdig d (List.mem_cons_self d ds)
    show findNumAux t (d :: (ds ++ t :: rest)) cur = _
    simp only [findNumAux]
    rw [if_pos hd]
    cases ds with
    | nil =>
      show findNumAux t (t :: rest) _ = _
      simp [findNumAux, ht, digitsVal]
    | cons e es =>
      rw [ih (fun c hc => hdig c (List.mem_cons_of_mem d hc)) (by simp) rest _]
      simp [digitsVal]

/-- Scanning past a digit run followed by a non-digit, non-marker character
continues with a reset accumulator. -/
theorem findNumAux_skip (t : Char) :
    ∀ (ds : List Char), (∀ c ∈ ds, c.isDigit = true) →
      ∀ (ch : Char), ch.isDigit = false → ch ≠ t →
      ∀ (rest : List Char) (cur : Option ℕ),
      findNumAux t (ds ++ ch :: rest) cur = findNumAux t rest none := by
  intro ds
  induction ds with
  | nil =>
    intro _ ch hch hne rest cur
    show findNumAux t (ch :: rest) cur = _
    simp [findNumAux, hch, hne]
  | cons d ds ih =>
    intro hdig ch hch hne rest cur
    have hd : d.isDigit = true := hdig d (List.mem_cons_self d ds)
    show findNumAux t (d :: (ds ++ ch :: rest)) cur = _
    simp only [findNumAux]
    rw [if_pos hd]
    exact ih (fun c hc => hdig c (List.mem_cons_of_mem d hc)) ch hch hne rest _

/-- Running `findNumAux` on a rendered number followed by its marker
returns the number. -/
theorem findNum_run (t : Char) (ht : t.isDigit = false) (n : ℕ) (rest : List Char) :
    findNumAux t (natRepr n ++ t :: rest) none = some n := by
  rw [findNumAux_run t ht (natRepr n) (natRepr_isDigit n) (natRepr_ne_nil n) rest none]
  simp [digitsVal_natRepr_zero]

/-- The scan skips a rendered number followed by a different marker. -/
theorem findNum_skip_chunk (t : Char) (n : ℕ) (ch : Char) (hch : ch.isDigit = false)
    (hne : ch ≠ t) (rest : List Char) (cur : Option ℕ) :
    findNumAux t (natRepr n ++ ch :: rest) cur = findNumAux t rest none :=
  findNumAux_skip t (natRepr n) (natRepr_isDigit n) ch hch hne rest cur

/-- The scan skips a separating space. -/
theorem findNum_space (t : Char) (hne : ' ' ≠ t) (rest : List Char) (cur : Option ℕ) :
    findNumAux t (' ' :: rest) cur = findNumAux t rest none := by
  simpa using findNumAux_skip t [] (by simp) ' ' (by decide) hne rest cur

/-- The scan finds nothing in a final chunk with a different marker. -/
theorem findNum_end_chunk (t : Char) (n : ℕ) (ch : Char) (hch : ch.isDigit = false)
    (hne : ch ≠ t) (cur : Option ℕ) :
    findNumAux t (natRepr n ++ [ch]) cur = none := by
  rw [show [ch] = ch :: ([] : List Char) from rfl,
    findNum_skip_chunk t n ch hch hne [] cur]
  rfl

/-- Claim C9: the function `format_copper` renders 10000 as `"1g"`, 150 as `"1s 50c"`,
0 as `"0c"` and 10250 as `"1g 2s 50c"`, and in general agrees with the
spec's description: every zero-valued component is omitted, except that a
lone `"0c"` is produced when all components are zero. -/
theorem format_copper_ok :
    (∀ c : ℕ, format_copper c = formatCopperSpec c) ∧
      format_copper 10000 = "1g" ∧ format_copper 150 = "1s 50c" ∧
      format_copper 0 = "0c" ∧ format_copper 10250 = "1g 2s 50c" := by
  refine ⟨fun c => ?_, by decide, by decide, by decide, by decide⟩
  unfold format_copper formatCopperSpec
  by_cases hg : 0 < c / 10000 <;> by_cases hs : 0 < c % 10000 / 100 <;>
    by_cases hr : 0 < c % 100 <;>
    simp [format_copper_parts, hg, hs, hr, joinSpace]
  all_goals rw [show c % 100 = 0 by omega]
  rfl

/-- Rewriting `parse_copper` via `Option.getD` (unfolding the three matches). -/
theorem parse_copper_getD (s : String) :
    parse_copper s = (findNum 'g' s.data).getD 0 * 10000 +
      (findNum 's' s.data).getD 0 * 100 + (findNum 'c' s.data).getD 0 := by
  unfold parse_copper
  rcases findNum 'g' s.data with _ | n <;> rcases findNum 's' s.data with _ | m <;>
    rcases findNum 'c' s.data with _ | k <;> simp

/-- Claim C10: round-trip of the currency codecs: for every non-negative
integer `c`, parsing the formatted string gives the value back:
`_parse_copper(format_copper(c)) = c`. -/
theorem parse_copper_format_copper (c : ℕ) : parse_copper (format_copper c) = c := by
  rw [parse_copper_getD]
  by_cases hg : 0 < c / 10000
  · by_cases hs : 0 < c % 10000 / 100
    · by_cases hr : 0 < c % 100
      · have hparts : format_copper_parts c =
            [natRepr (c / 10000) ++ ['g'], natRepr (c % 10000 / 100) ++ ['s'],
              natRepr (c % 100) ++ ['c']] := by
          simp [format_copper_parts, hg, hs, hr]
        have hfc : (format_copper c).data =
            natRepr (c / 10000) ++ 'g' :: ' ' ::
              (natRepr (c % 10000 / 100) ++ 's' :: ' ' ::
                (natRepr (c % 100) ++ ['c'])) := by
          show joinSpace (format_copper_parts c) = _
          rw [hparts]
          simp [joinSpace]
        have h1 : findNum 'g' (format_copper c).data = some (c / 10000) := by
          rw [hfc]; exact findNum_run 'g' (by decide) _ _
        have h2 : findNum 's' (format_copper c).data = some (c % 10000 / 100) := by
          rw [hfc]
          show findNumAux 's' _ none = _
          rw [findNum_skip_chunk 's' (c / 10000) 'g' (by decide) (by decide),
            findNum_space 's' (by decide), findNum_run 's' (by decide)]
        have h3 : findNum 'c' (format_copper c).data = some (c % 100) := by
          rw [hfc]
          show findNumAux 'c' _ none = _
          rw [findNum_skip_chunk 'c' (c / 10000) 'g' (by decide) (by decide),
            findNum_space 'c' (by decide),
            findNum_skip_chunk 'c' (c % 10000 / 100) 's' (by decide) (by decide),
            findNum_space 'c' (by decide), findNum_run 'c' (by decide)]
        rw [h1, h2, h3]
        simp only [Option.getD_some]
        omega
      · have hparts : format_copper_parts c =
            [natRepr (c / 10000) ++ ['g'], natRepr (c % 10000 / 100) ++ ['s']] := by
          simp [format_copper_parts, hg, hs, hr]
        have hfc : (format_copper c).data =
            natRepr (c / 10000) ++ 'g' :: ' ' ::
              (natRepr (c % 10000 / 100) ++ ['s']) := by
          show joinSpace (format_copper_parts c) = _
          rw [hparts]
          simp [joinSpace]
        have h1 : findNum 'g' (format_copper c).data = some (c / 10000) := by
          rw [hfc]; exact findNum_run 'g' (by decide) _ _
        have h2 : findNum 's' (format_copper c).data = some (c % 10000 / 100) := by
          rw [hfc]
          show findNumAux 's' _ none = _
          rw [findNum_skip_chunk 's' (c / 10000) 'g' (by decide) (by decide),
            findNum_space 's' (by decide), findNum_run 's' (by decide)]
        have h3 : findNum 'c' (format_copper c).data = none := by
          rw [hfc]
          show findNumAux 'c' _ none = _
          rw [findNum_skip_chunk 'c' (c / 10000) 'g' (by decide) (by decide),
            findNum_space 'c' (by decide),
            findNum_end_chunk 'c' (c % 10000 / 100) 's' (by decide) (by decide)]
        rw [h1, h2, h3]
        simp only [Option.getD_some, Option.getD_none]
        omega
    · by_cases hr : 0 < c % 100
      · have hparts : format_copper_parts c =
            [natRepr (c / 10000) ++ ['g'], natRepr (c % 100) ++ ['c']] := by
          simp [format_copper_parts, hg, hs, hr]
        have hfc : (format_copper c).data =
            natRepr (c / 10000) ++ 'g' :: ' ' :: (natRepr (c % 100) ++ ['c']) := by
          show joinSpace (format_copper_parts c) = _
          rw [hparts]
          simp [joinSpace]
        have h1 : findNum 'g' (format_copper c).data = some (c / 10000) := by
          rw [hfc]; exact findNum_run 'g' (by decide) _ _
        have h2 : findNum 's' (format_copper c).data = none := by
          rw [hfc]
          show findNumAux 's' _ none = _
          rw [findNum_skip_chunk 's' (c / 10000) 'g' (by decide) (by decide),
            findNum_space 's' (by decide),
            findNum_end_chunk 's' (c % 100) 'c' (by decide) (by decide)]
        have h3 : findNum 'c' (format_copper c).data = some (c % 100) := by
          rw [hfc]
          show findNumAux 'c' _ none = _
          rw [findNum_skip_chunk 'c' (c / 10000) 'g' (by decide) (by decide),
            findNum_space 'c' (by decide), findNum_run 'c' (by decide)]
        rw [h1, h2, h3]
        simp only [Option.getD_some, Option.getD_none]
        omega
      · have hparts : format_copper_parts c = [natRepr (c / 10000) ++ ['g']] := by
          simp [format_copper_parts, hg, hs, hr]
        have hfc : (format_copper c).data = natRepr (c / 10000) ++ 'g' :: [] := by
          show joinSpace (format_copper_parts c) = _
          rw [hparts]
          simp [joinSpace]
        have h1 : findNum 'g' (format_copper c).data = some (c / 10000) := by
          rw [hfc]; exact findNum_run 'g' (by decide) _ _
        have h2 : findNum 's' (format_copper c).data = none := by
          rw [hfc]
          show findNumAux 's' _ none = _
          rw [findNum_end_chunk 's' (c / 10000) 'g' (by decide) (by decide)]
        have h3 : findNum 'c' (format_copper c).data = none := by
          rw [hfc]
          show findNumAux 'c' _ none = _
          rw [findNum_end_chunk 'c' (c / 10000) 'g' (by decide) (by decide)]
        rw [h1, h2, h3]
        simp only [Option.getD_some, Option.getD_none]
        omega
  · by_cases hs : 0 < c % 10000 / 100
    · by_cases hr : 0 < c % 100
      · have hparts : format_copper_parts c =
            [natRepr (c % 10000 / 100) ++ ['s'], natRepr (c % 100) ++ ['c']] := by
          simp [format_copper_parts, hg, hs, hr]
        have hfc : (format_copper c).data =
            natRepr (c % 10000 / 100) ++ 's' :: ' ' :: (natRepr (c % 100) ++ ['c']) := by
          show joinSpace (format_copper_parts c) = _
          rw [hparts]
          simp [joinSpace]
        have h1 : findNum 'g' (format_copper c).data = none := by
          rw [hfc]
          show findNumAux 'g' _ none = _
          rw [findNum_skip_chunk 'g' (c % 10000 / 100) 's' (by decide) (by decide),
            findNum_space 'g' (by decide),
            findNum_end_chunk 'g' (c % 100) 'c' (by decide) (by decide)]
        have h2 : findNum 's' (format_copper c).data = some (c % 10000 / 100) := by
          rw [hfc]; exact findNum_run 's' (by decide) _ _
        have h3 : findNum 'c' (format_copper c).data = some (c % 100) := by
          rw [hfc]
          show findNumAux 'c' _ none = _
          rw [findNum_skip_chunk 'c' (c % 10000 / 100) 's' (by decide) (by decide),
            findNum_space 'c' (by decide), findNum_run 'c' (by decide)]
        rw [h1, h2, h3]
        simp only [Option.getD_some, Option.getD_none]
        omega
      · have hparts : format_copper_parts c = [natRepr (c % 10000 / 100) ++ ['s']] := by
          simp [format_copper_parts, hg, hs, hr]
        have hfc : (format_copper c).data = natRepr (c % 10000 / 100) ++ 's' :: [] := by
          show joinSpace (format_copper_parts c) = _
          rw [hparts]
          simp [joinSpace]
        have h1 : findNum 'g' (format_copper c).data = none := by
          rw [hfc]
          show findNumAux 'g' _ none = _
          rw [findNum_end_chunk 'g' (c % 10000 / 100) 's' (by decide) (by decide)]
        have h2 : findNum 's' (format_copper c).data = some (c % 10000 / 100) := by
          rw [hfc]; exact findNum_run 's' (by decide) _ _
        have h3 : findNum 'c' (format_copper c).data = none := by
          rw [hfc]
          show findNumAux 'c' _ none = _
          rw [findNum_end_chunk 'c' (c % 10000 / 100) 's' (by decide) (by decide)]
        rw [h1, h2, h3]
        simp only [Option.getD_some, Option.getD_none]
        omega
    · have hparts : format_copper_parts c = [natRepr (c % 100) ++ ['c']] := by
        simp [format_copper_parts, hg, hs]
      have hfc : (format_copper c).data = natRepr (c % 100) ++ 'c' :: [] := by
        show joinSpace (format_copper_parts c) = _
        rw [hparts]
        simp [joinSpace]
      have h1 : findNum 'g' (format_copper c).data = none := by
        rw [hfc]
        show findNumAux 'g' _ none = _
        rw [findNum_end_chunk 'g' (c % 100) 'c' (by decide) (by decide)]
      have h2 : findNum 's' (format_copper c).data = none := by
        rw [hfc]
        show findNumAux 's' _ none = _
        rw [findNum_end_chunk 's' (c % 100) 'c' (by decide) (by decide)]
      have h3 : findNum 'c' (format_copper c).data = some (c % 100) := by
        rw [hfc]; exact findNum_run 'c' (by decide) _ _
      rw [h1, h2, h3]
      simp only [Option.getD_some, Option.getD_none]
      omega

end Scanner
